import Mathlib

/-!
# Verification of `gameoflife.c` (badge-gameoflife)

Shallow embedding of the Game of Life program in `src/gameoflife.c`:
a 24×18 cellular automaton (`gol_initialize`, `getAtPos`, `gol_step`),
the frame driver's catch-up loop and render pass (`SDL_AppIterate`),
and the input handling (`handle_key_event_`, `SDL_AppEvent`).

Cells are `unsigned char` in the C source; they are modelled as `Nat`
(the program only ever stores 0 or 1, far below any overflow).  The
grid is the flat array `cells[GAME_WIDTH * GAME_HEIGHT]`, modelled as a
`List Nat` indexed by `x + y * GAME_WIDTH`.  The pseudo-random source
`SDL_rand` is modelled as an explicit draw function `rand : Nat → Nat`
giving the value of the i-th draw; `SDL_rand(n)` returns a value in
`[0, n)`, which appears as a hypothesis where needed.  The SDL
timestamps `now` and `last_step` are `Uint64` in the source; here they
are `Nat`.  The loop guard `now - as->last_step` is computed in
`Uint64`, which agrees with `Nat` subtraction whenever
`last_step ≤ now` (the regime of every claim about the clock: the
program establishes it at startup and the catch-up loop preserves it,
and both values are below `2^64` by their type, so the wrapped
difference `(now - last_step) mod 2^64` is the exact difference).
-/

/-- The C macro `GAME_WIDTH` (`#define GAME_WIDTH 24U`). -/
def GAME_WIDTH : Nat := 24

/-- The C macro `GAME_HEIGHT` (`#define GAME_HEIGHT 18U`). -/
def GAME_HEIGHT : Nat := 18

/-- The C macro `STEP_RATE_IN_MILLISECONDS` (250). -/
def STEP_RATE_IN_MILLISECONDS : Nat := 250

/-- The C macro `BLOCK_SIZE_IN_PIXELS` (24). -/
def BLOCK_SIZE_IN_PIXELS : Nat := 24

/-- The grid state of `GolContext`: the `cells` array, row-major
(`cells[x + y * GAME_WIDTH]`).  The scratch array `newCells` of the C
struct is dead state between calls (it is zeroed at the start of each
`gol_step`), so it becomes a local value of the functional `gol_step`. -/
structure GolContext where
  cells : List Nat
deriving DecidableEq

/-- The function `getAtPos` (gameoflife.c lines 48–54): the cell at
`(x, y)`, or 0 for any coordinate outside
`[0, GAME_WIDTH) × [0, GAME_HEIGHT)`. -/
def getAtPos (ctx : GolContext) (x y : Int) : Nat :=
  if x < 0 ∨ (GAME_WIDTH : Int) ≤ x ∨ y < 0 ∨ (GAME_HEIGHT : Int) ≤ y then 0
  else ctx.cells.getD (x + y * (GAME_WIDTH : Int)).toNat 0

/-- The neighbor count computed inline in `gol_step` (lines 63–70): the
sum of `getAtPos` over the 8 horizontally/vertically/diagonally
adjacent positions. -/
def neighbors (ctx : GolContext) (x y : Int) : Nat :=
  getAtPos ctx (x - 1) (y - 1)
  + getAtPos ctx x (y - 1)
  + getAtPos ctx (x + 1) (y - 1)
  + getAtPos ctx (x - 1) y
  + getAtPos ctx (x + 1) y
  + getAtPos ctx (x - 1) (y + 1)
  + getAtPos ctx x (y + 1)
  + getAtPos ctx (x + 1) (y + 1)

/-- The function `gol_step` (lines 56–84).  The C zeroes `newCells`,
then for every `(x, y)` writes `newCells[x + y*GAME_WIDTH]`: the old
cell value when the neighbor count is 2, 1 when it is 3 (the two
conditions are mutually exclusive), and the entry keeps its zero
otherwise; finally `cells` is overwritten with `newCells`.  Every index
`idx < GAME_WIDTH*GAME_HEIGHT` is written by exactly one pair
`(x, y) = (idx % GAME_WIDTH, idx / GAME_WIDTH)`, so the new `cells`
array is the map below.  All reads (`getAtPos`) go to the old `cells`,
so the next generation is a function of the pre-step snapshot only. -/
def gol_step (ctx : GolContext) : GolContext :=
  ⟨(List.range (GAME_WIDTH * GAME_HEIGHT)).map (fun idx =>
      let x : Int := (idx % GAME_WIDTH : Nat)
      let y : Int := (idx / GAME_WIDTH : Nat)
      if neighbors ctx x y = 2 then getAtPos ctx x y
      else if neighbors ctx x y = 3 then 1
      else 0)⟩

/-- The function `gol_initialize` (lines 39–46): zero all cells
(`SDL_zeroa`), then for `i = 0 .. GAME_WIDTH*GAME_HEIGHT/2 - 1` set
`cells[SDL_rand(GAME_WIDTH*GAME_HEIGHT)] = 1`; `rand i` is the i-th
value returned by `SDL_rand`. -/
def gol_initialize (rand : Nat → Nat) : GolContext :=
  ⟨(List.range (GAME_WIDTH * GAME_HEIGHT / 2)).foldl
      (fun cells i => cells.set (rand i) 1)
      (List.replicate (GAME_WIDTH * GAME_HEIGHT) 0)⟩

/-- One unrolling bound of the catch-up loop of `SDL_AppIterate`
(lines 112–115): as long as `now - last_step ≥ STEP_RATE_IN_MILLISECONDS`,
run `gol_step` and advance `last_step += STEP_RATE_IN_MILLISECONDS`.
`fuel` only bounds the recursion depth: every loop iteration requires
`now - last_step ≥ 250` and shrinks that difference by exactly 250, so
the loop runs `(now - last_step) / 250` times, which is less than the
`now - last_step + 1` supplied by `sdl_catch_up`; the theorem
`sdl_catch_up_spec` proves the guard fails (the `fuel = 0` branch is
never the one that returns) before the fuel runs out.  Returns the grid
after the steps, the final `last_step`, and the number of `gol_step`
calls performed. -/
def sdl_catch_up_go (fuel : Nat) (ctx : GolContext) (last_step now : Nat) :
    GolContext × Nat × Nat :=
  match fuel with
  | 0 => (ctx, last_step, 0)
  | fuel + 1 =>
    if STEP_RATE_IN_MILLISECONDS ≤ now - last_step then
      let r := sdl_catch_up_go fuel (gol_step ctx)
        (last_step + STEP_RATE_IN_MILLISECONDS) now
      (r.1, r.2.1, r.2.2 + 1)
    else
      (ctx, last_step, 0)

/-- The catch-up loop of `SDL_AppIterate` (lines 112–115).  The
`Uint64` guard `now - as->last_step` agrees with `Nat` subtraction in
the `last_step ≤ now` regime (see the module comment). -/
def sdl_catch_up (ctx : GolContext) (last_step now : Nat) :
    GolContext × Nat × Nat :=
  sdl_catch_up_go (now - last_step + 1) ctx last_step now

/-- A sequence of frame callbacks: fold the catch-up loop of
`SDL_AppIterate` over the successive values of `SDL_GetTicks()`,
starting from the grid and `last_step` produced by `SDL_AppInit`
(which sets `as->last_step = SDL_GetTicks()` once, line 214). -/
def runFrames (ctx : GolContext) (last_step : Nat) (nows : List Nat) :
    GolContext × Nat :=
  nows.foldl
    (fun s now => ((sdl_catch_up s.1 s.2 now).1, (sdl_catch_up s.1 s.2 now).2.1))
    (ctx, last_step)

/-- The render calls `SDL_AppIterate` can issue (lines 117–131). -/
inductive RenderCmd where
  | setRenderDrawColor (r g b a : Nat)
  | renderClear
  | renderFillRect (x y w h : Nat)
  | renderPresent
deriving DecidableEq

/-- The iteration order of the render loop of `SDL_AppIterate`
(lines 122–129): `i` outer over `[0, GAME_WIDTH)`, `j` inner over
`[0, GAME_HEIGHT)`. -/
def cellPairs : List (Nat × Nat) :=
  (List.range GAME_WIDTH).flatMap
    (fun i => (List.range GAME_HEIGHT).map (fun j => (i, j)))

/-- One iteration of the render loop body (lines 124–127): when
`cells[i + j*GAME_WIDTH]` is nonzero, `set_rect_xy_` moves the rect
`r` to `(i*BLOCK_SIZE_IN_PIXELS, j*BLOCK_SIZE_IN_PIXELS)` and
`SDL_RenderFillRect` is called; `r.w = r.h = BLOCK_SIZE_IN_PIXELS - 1`
throughout (line 117).  The accumulator carries the emitted calls and
the current `(r.x, r.y)`. -/
def renderCellStep (ctx : GolContext)
    (acc : List RenderCmd × (Nat × Nat)) (ij : Nat × Nat) :
    List RenderCmd × (Nat × Nat) :=
  if ctx.cells.getD (ij.1 + ij.2 * GAME_WIDTH) 0 != 0 then
    (acc.1 ++ [RenderCmd.renderFillRect (ij.1 * BLOCK_SIZE_IN_PIXELS)
        (ij.2 * BLOCK_SIZE_IN_PIXELS)
        (BLOCK_SIZE_IN_PIXELS - 1) (BLOCK_SIZE_IN_PIXELS - 1)],
     (ij.1 * BLOCK_SIZE_IN_PIXELS, ij.2 * BLOCK_SIZE_IN_PIXELS))
  else acc

/-- The full render loop of `SDL_AppIterate` (lines 122–129), starting
from the rect position `r0` the rect `r` holds before the loop (the C
leaves `r.x`, `r.y` uninitialized, so `r0` is an arbitrary parameter). -/
def renderLoop (ctx : GolContext) (r0 : Nat × Nat) :
    List RenderCmd × (Nat × Nat) :=
  cellPairs.foldl (renderCellStep ctx) ([], r0)

/-- The render pass of `SDL_AppIterate` (lines 117–131): set color
(96,96,96,opaque), clear, set color (255,255,0,opaque), the cell loop,
then one further `SDL_RenderFillRect(as->renderer, &r)` (line 130) with
whatever `r` holds after the loop, then present. -/
def SDL_AppIterate_render (ctx : GolContext) (r0 : Nat × Nat) :
    List RenderCmd :=
  [RenderCmd.setRenderDrawColor 96 96 96 255,
   RenderCmd.renderClear,
   RenderCmd.setRenderDrawColor 255 255 0 255]
  ++ (renderLoop ctx r0).1
  ++ [RenderCmd.renderFillRect (renderLoop ctx r0).2.1 (renderLoop ctx r0).2.2
        (BLOCK_SIZE_IN_PIXELS - 1) (BLOCK_SIZE_IN_PIXELS - 1),
      RenderCmd.renderPresent]

/-- Whether a render call is an `SDL_RenderFillRect`. -/
def isFillRect : RenderCmd → Bool
  | RenderCmd.renderFillRect _ _ _ _ => true
  | _ => false

/-- The number of `Alive` (nonzero) cells of the grid, counted over the
grid positions `(i, j)` in render order. -/
def countAliveCells (ctx : GolContext) : Nat :=
  cellPairs.countP (fun ij => ctx.cells.getD (ij.1 + ij.2 * GAME_WIDTH) 0 != 0)

/-- The SDL scancode `SDL_SCANCODE_ESCAPE`. -/
def SDL_SCANCODE_ESCAPE : Nat := 41

/-- The SDL scancode `SDL_SCANCODE_Q`. -/
def SDL_SCANCODE_Q : Nat := 20

/-- The SDL scancode `SDL_SCANCODE_R`. -/
def SDL_SCANCODE_R : Nat := 21

/-- The `SDL_AppResult` values the program returns from its callbacks. -/
inductive SDL_AppResult where
  | SDL_APP_CONTINUE
  | SDL_APP_SUCCESS
  | SDL_APP_FAILURE
deriving DecidableEq

/-- The events the program inspects: `SDL_EVENT_QUIT`,
`SDL_EVENT_KEY_DOWN` with its scancode, and any other event type. -/
inductive SDL_Event where
  | quit
  | keyDown (scancode : Nat)
  | other (ty : Nat)
deriving DecidableEq

/-- The function `handle_key_event_` (lines 86–97): Escape and Q return
`SDL_APP_SUCCESS`; R calls `gol_initialize` (its `SDL_rand` draws are
the `rand` parameter) and falls through to `SDL_APP_CONTINUE`; every
other scancode falls through unchanged. -/
def handle_key_event_ (rand : Nat → Nat) (ctx : GolContext)
    (key_code : Nat) : GolContext × SDL_AppResult :=
  if key_code = SDL_SCANCODE_ESCAPE ∨ key_code = SDL_SCANCODE_Q then
    (ctx, SDL_AppResult.SDL_APP_SUCCESS)
  else if key_code = SDL_SCANCODE_R then
    ( gol_initialize rand, SDL_AppResult.SDL_APP_CONTINUE)
  else
    (ctx, SDL_AppResult.SDL_APP_CONTINUE)

/-- The callback `SDL_AppEvent` (lines 219–227): `SDL_EVENT_QUIT`
returns `SDL_APP_SUCCESS`, `SDL_EVENT_KEY_DOWN` delegates to
`handle_key_event_`, everything else returns `SDL_APP_CONTINUE`.  The
returned pair is the (possibly re-initialized) grid and the result. -/
def SDL_AppEvent (rand : Nat → Nat) (ctx : GolContext) (e : SDL_Event) :
    GolContext × SDL_AppResult :=
  match e with
  | SDL_Event.quit => (ctx, SDL_AppResult.SDL_APP_SUCCESS)
  | SDL_Event.keyDown code => handle_key_event_ rand ctx code
  | SDL_Event.other _ => (ctx, SDL_AppResult.SDL_APP_CONTINUE)

/-- The Life rule as the specification states it: a live cell survives
with exactly 2 or 3 live neighbors, a dead cell is born with exactly 3. -/
def lifeRuleSpec (alive : Bool) (n : Nat) : Bool :=
  if alive then n == 2 || n == 3 else n == 3

/-- The all-dead 24×18 grid. -/
def emptyCtx : GolContext :=
  ⟨List.replicate (GAME_WIDTH * GAME_HEIGHT) 0⟩

/-- The vertical blinker: cells `(1,0)`, `(1,1)`, `(1,2)` alive
(indices 1, 25, 49), all other cells dead. -/
def blinkerV : GolContext :=
  ⟨(List.range (GAME_WIDTH * GAME_HEIGHT)).map (fun i =>
      if i = 1 ∨ i = 25 ∨ i = 49 then 1 else 0)⟩

/-- The horizontal blinker: cells `(0,1)`, `(1,1)`, `(2,1)` alive
(indices 24, 25, 26), all other cells dead. -/
def blinkerH : GolContext :=
  ⟨(List.range (GAME_WIDTH * GAME_HEIGHT)).map (fun i =>
      if i = 24 ∨ i = 25 ∨ i = 26 then 1 else 0)⟩
/-- An entry read with a default is either the default or a member of
the list. -/
theorem getD_default_or_mem (l : List Nat) (n d : Nat) :
    l.getD n d = d ∨ l.getD n d ∈ l := by
  rcases h : l[n]? with _ | v
  · left; simp [List.getD_eq_getElem?_getD, h]
  · right
    have hv := List.getElem?_mem h
    simpa [List.getD_eq_getElem?_getD, h] using hv

/-- On a grid whose cells are all 0 or 1, `getAtPos` returns 0 or 1. -/
theorem getAtPos_binary (ctx : GolContext)
    (hbin : ∀ v ∈ ctx.cells, v = 0 ∨ v = 1) (x y : Int) :
    getAtPos ctx x y = 0 ∨ getAtPos ctx x y = 1 := by
  unfold getAtPos
  split
  · exact Or.inl rfl
  · rcases getD_default_or_mem ctx.cells (x + y * (GAME_WIDTH : Int)).toNat 0 with h | h
    · exact Or.inl h
    · exact hbin _ h

/-- The loop body characterization of `sdl_catch_up_go`: with enough
fuel and an unwrapped clock it runs `(now - last_step) / 250` steps. -/
theorem sdl_catch_up_go_spec (fuel : Nat) :
    ∀ ctx last_step now, last_step ≤ now →
      now - last_step < STEP_RATE_IN_MILLISECONDS * fuel →
      sdl_catch_up_go fuel ctx last_step now =
        (gol_step^[(now - last_step) / STEP_RATE_IN_MILLISECONDS] ctx,
         last_step + STEP_RATE_IN_MILLISECONDS *
           ((now - last_step) / STEP_RATE_IN_MILLISECONDS),
         (now - last_step) / STEP_RATE_IN_MILLISECONDS) := by
  have hS : STEP_RATE_IN_MILLISECONDS = 250 := rfl
  simp only [hS]
  induction fuel with
  | zero => intro ctx last_step now hle hfuel; omega
  | succ fuel ih =>
    intro ctx last_step now hle hfuel
    rw [sdl_catch_up_go]
    simp only [hS]
    by_cases h : 250 ≤ now - last_step
    · rw [if_pos h]
      have hle2 : last_step + 250 ≤ now := by omega
      have hfuel2 : now - (last_step + 250) < 250 * fuel := by omega
      rw [ih (gol_step ctx) _ now hle2 hfuel2]
      have hdiv : (now - last_step) / 250 =
          (now - (last_step + 250)) / 250 + 1 := by
        have heq : now - (last_step + 250) = now - last_step - 250 := by omega
        rw [heq]
        exact Nat.div_eq_sub_div (by omega) (by omega)
      rw [hdiv]
      refine Prod.ext ?_ (Prod.ext ?_ ?_)
      · exact (Function.iterate_succ_apply gol_step _ ctx).symm
      · show last_step + 250 + 250 * ((now - (last_step + 250)) / 250) =
          last_step + 250 * ((now - (last_step + 250)) / 250 + 1)
        ring
      · rfl
    · rw [if_neg h]
      have hd0 : (now - last_step) / 250 = 0 := by
        apply Nat.div_eq_of_lt; omega
      rw [hd0]
      simp

/-- Closed form of the catch-up loop for `last_step ≤ now`: it runs
`(now - last_step) / 250` steps and advances `last_step` by 250 each. -/
theorem sdl_catch_up_spec (ctx : GolContext) (last_step now : Nat)
    (h : last_step ≤ now) :
    sdl_catch_up ctx last_step now =
      (gol_step^[(now - last_step) / STEP_RATE_IN_MILLISECONDS] ctx,
       last_step + STEP_RATE_IN_MILLISECONDS *
         ((now - last_step) / STEP_RATE_IN_MILLISECONDS),
       (now - last_step) / STEP_RATE_IN_MILLISECONDS) := by
  apply sdl_catch_up_go_spec (now - last_step + 1) ctx last_step now h
  have hS : STEP_RATE_IN_MILLISECONDS = 250 := rfl
  rw [hS]
  omega
/-- C3: for every clock state with `last_step ≤ now`, a frame callback
with `now = last_step + 3*step_interval` runs exactly 3 engine steps
and advances `last_step` by exactly `3*step_interval`; in general the
loop runs one step and adds `step_interval` to `last_step` while
`now - last_step ≥ step_interval`. -/
theorem SDL_AppIterate_three_steps (ctx : GolContext) (last_step : Nat) :
    sdl_catch_up ctx last_step (last_step + 3 * STEP_RATE_IN_MILLISECONDS) =
      (gol_step (gol_step (gol_step ctx)),
       last_step + 3 * STEP_RATE_IN_MILLISECONDS, 3)
    ∧ ∀ now, last_step ≤ now → STEP_RATE_IN_MILLISECONDS ≤ now - last_step →
        sdl_catch_up ctx last_step now =
          ((sdl_catch_up (gol_step ctx) (last_step + STEP_RATE_IN_MILLISECONDS) now).1,
           (sdl_catch_up (gol_step ctx) (last_step + STEP_RATE_IN_MILLISECONDS) now).2.1,
           (sdl_catch_up (gol_step ctx) (last_step + STEP_RATE_IN_MILLISECONDS) now).2.2 + 1) := by
  have hS : STEP_RATE_IN_MILLISECONDS = 250 := rfl
  constructor
  · rw [sdl_catch_up_spec ctx last_step _ (by omega)]
    have h3 : (last_step + 3 * STEP_RATE_IN_MILLISECONDS - last_step) /
        STEP_RATE_IN_MILLISECONDS = 3 := by rw [hS]; omega
    rw [h3]
    rfl
  · intro now hle h
    rw [sdl_catch_up_spec ctx last_step now hle,
      sdl_catch_up_spec (gol_step ctx) (last_step + STEP_RATE_IN_MILLISECONDS) now (by omega)]
    have hdiv : (now - last_step) / STEP_RATE_IN_MILLISECONDS =
        (now - (last_step + STEP_RATE_IN_MILLISECONDS)) / STEP_RATE_IN_MILLISECONDS + 1 := by
      rw [hS] at h ⊢
      have heq : now - (last_step + 250) = now - last_step - 250 := by omega
      rw [heq]
      exact Nat.div_eq_sub_div (by omega) h
    rw [hdiv]
    refine Prod.ext ?_ (Prod.ext ?_ ?_)
    · exact (Function.iterate_succ_apply gol_step _ ctx).symm
    · show last_step + STEP_RATE_IN_MILLISECONDS *
          ((now - (last_step + STEP_RATE_IN_MILLISECONDS)) / STEP_RATE_IN_MILLISECONDS + 1) =
        last_step + STEP_RATE_IN_MILLISECONDS +
          STEP_RATE_IN_MILLISECONDS *
            ((now - (last_step + STEP_RATE_IN_MILLISECONDS)) / STEP_RATE_IN_MILLISECONDS)
      ring
    · rfl

/-- Witness for C3 at `ctx = emptyCtx`, `last_step = 0`, `now = 600`. -/
theorem SDL_AppIterate_three_steps_witness :
    sdl_catch_up emptyCtx 0 600 =
      ((sdl_catch_up (gol_step emptyCtx) (0 + STEP_RATE_IN_MILLISECONDS) 600).1,
       (sdl_catch_up (gol_step emptyCtx) (0 + STEP_RATE_IN_MILLISECONDS) 600).2.1,
       (sdl_catch_up (gol_step emptyCtx) (0 + STEP_RATE_IN_MILLISECONDS) 600).2.2 + 1) :=
  (SDL_AppIterate_three_steps emptyCtx 0).2 600 (by omega) (by decide)

/-- C5: for every clock state with `last_step ≤ now`, a frame callback
with `now < last_step + step_interval` runs zero engine steps and
leaves `last_step` unchanged. -/
theorem SDL_AppIterate_zero_steps (ctx : GolContext) (last_step now : Nat)
    (h1 : last_step ≤ now) (h2 : now < last_step + STEP_RATE_IN_MILLISECONDS) :
    sdl_catch_up ctx last_step now = (ctx, last_step, 0) := by
  rw [sdl_catch_up_spec ctx last_step now h1]
  have hS : STEP_RATE_IN_MILLISECONDS = 250 := rfl
  have h0 : (now - last_step) / STEP_RATE_IN_MILLISECONDS = 0 := by
    rw [hS] at h2 ⊢
    apply Nat.div_eq_of_lt
    omega
  rw [h0]
  simp

/-- Witness for C5 at `ctx = emptyCtx`, `last_step = 10`, `now = 20`. -/
theorem SDL_AppIterate_zero_steps_witness :
    sdl_catch_up emptyCtx 10 20 = (emptyCtx, 10, 0) :=
  SDL_AppIterate_zero_steps emptyCtx 10 20 (by omega) (by decide)

/-- C8: across every sequence of frame callbacks with non-decreasing
`now` values (starting at or after the initial `last_step` set once by
`SDL_AppInit`), the final `last_step` is the initial value plus a whole
multiple of `step_interval`: it is never assigned the current time. -/
theorem last_step_only_advances_by_multiples (ctx : GolContext)
    (last0 : Nat) (nows : List Nat)
    (hmono : List.Chain' (fun a b => a ≤ b) (last0 :: nows)) :
    ∃ k, (runFrames ctx last0 nows).2 = last0 + STEP_RATE_IN_MILLISECONDS * k := by
  have hS : STEP_RATE_IN_MILLISECONDS = 250 := rfl
  induction nows generalizing ctx last0 with
  | nil => exact ⟨0, by simp [runFrames]⟩
  | cons n rest ih =>
    have h1 : last0 ≤ n := (List.chain'_cons.mp hmono).1
    have h2 : List.Chain' (fun a b => a ≤ b) (n :: rest) :=
      (List.chain'_cons.mp hmono).2
    have hcall := sdl_catch_up_spec ctx last0 n h1
    have hle1 : last0 + STEP_RATE_IN_MILLISECONDS *
        ((n - last0) / STEP_RATE_IN_MILLISECONDS) ≤ n := by
      have := Nat.div_mul_le_self (n - last0) 250
      rw [hS]
      omega
    have hchain : List.Chain' (fun a b => a ≤ b)
        ((last0 + STEP_RATE_IN_MILLISECONDS *
          ((n - last0) / STEP_RATE_IN_MILLISECONDS)) :: rest) := by
      cases rest with
      | nil => exact List.chain'_singleton _
      | cons m rest2 =>
        exact List.chain'_cons.mpr
          ⟨le_trans hle1 (List.chain'_cons.mp h2).1, (List.chain'_cons.mp h2).2⟩
    obtain ⟨k, hk⟩ := ih (sdl_catch_up ctx last0 n).1
      (last0 + STEP_RATE_IN_MILLISECONDS * ((n - last0) / STEP_RATE_IN_MILLISECONDS))
      hchain
    refine ⟨(n - last0) / STEP_RATE_IN_MILLISECONDS + k, ?_⟩
    simp only [runFrames, List.foldl_cons] at hk ⊢
    rw [hcall] at hk ⊢
    rw [hk]
    ring

/-- Witness for C8 at `ctx = emptyCtx`, `last0 = 0`,
`nows = [300, 600]`. -/
theorem last_step_only_advances_by_multiples_witness :
    ∃ k, (runFrames emptyCtx 0 [300, 600]).2 =
      0 + STEP_RATE_IN_MILLISECONDS * k :=
  last_step_only_advances_by_multiples emptyCtx 0 [300, 600]
    (List.chain'_cons.mpr ⟨by omega,
      List.chain'_cons.mpr ⟨by omega, List.chain'_singleton 600⟩⟩)
/-- C2: `getAtPos` returns the stored cell inside
`[0, GAME_WIDTH) × [0, GAME_HEIGHT)` and 0 (`Dead`) outside, and the
neighbor count used by `gol_step` is exactly the sum of `getAtPos` over
the 8 adjacent positions — off-grid positions contribute 0, so the grid
never wraps. -/
theorem getAtPos_in_out_of_bounds (ctx : GolContext) (x y : Int) :
    (¬(0 ≤ x ∧ x < (GAME_WIDTH : Int) ∧ 0 ≤ y ∧ y < (GAME_HEIGHT : Int)) →
      getAtPos ctx x y = 0)
    ∧ ((0 ≤ x ∧ x < (GAME_WIDTH : Int) ∧ 0 ≤ y ∧ y < (GAME_HEIGHT : Int)) →
      getAtPos ctx x y = ctx.cells.getD (x + y * (GAME_WIDTH : Int)).toNat 0)
    ∧ neighbors ctx x y =
        getAtPos ctx (x - 1) (y - 1) + getAtPos ctx x (y - 1)
        + getAtPos ctx (x + 1) (y - 1) + getAtPos ctx (x - 1) y
        + getAtPos ctx (x + 1) y + getAtPos ctx (x - 1) (y + 1)
        + getAtPos ctx x (y + 1) + getAtPos ctx (x + 1) (y + 1) := by
  refine ⟨?_, ?_, rfl⟩
  · intro h
    unfold getAtPos
    rw [if_pos]
    omega
  · intro h
    unfold getAtPos
    rw [if_neg]
    omega

/-- Witness for C2 at the off-grid position `(-1, 0)` of `blinkerV`. -/
theorem getAtPos_in_out_of_bounds_witness :
    getAtPos blinkerV (-1) 0 = 0 :=
  (getAtPos_in_out_of_bounds blinkerV (-1) 0).1 (by decide)

/-- C1: on a grid whose cells are all `Alive` (1) or `Dead` (0),
`gol_step` computes every next-generation cell by the standard Life
rule (`lifeRuleSpec`) from the pre-step snapshot: a live cell stays
alive exactly with 2 or 3 live neighbors, a dead cell becomes alive
exactly with 3. -/
theorem gol_step_follows_life_rule (ctx : GolContext)
    (hbin : ∀ v ∈ ctx.cells, v = 0 ∨ v = 1) (x y : Nat)
    (hx : x < GAME_WIDTH) (hy : y < GAME_HEIGHT) :
    (gol_step ctx).cells.getD (x + y * GAME_WIDTH) 0 =
      if lifeRuleSpec (getAtPos ctx (x : Int) (y : Int) == 1)
          (neighbors ctx (x : Int) (y : Int)) then 1 else 0 := by
  have hW : GAME_WIDTH = 24 := rfl
  have hH : GAME_HEIGHT = 18 := rfl
  have hidx : x + y * GAME_WIDTH < GAME_WIDTH * GAME_HEIGHT := by
    rw [hW] at hx ⊢
    rw [hH] at hy ⊢
    omega
  have hxmod : (x + y * GAME_WIDTH) % GAME_WIDTH = x := by
    rw [hW] at hx ⊢
    omega
  have hydiv : (x + y * GAME_WIDTH) / GAME_WIDTH = y := by
    rw [hW] at hx ⊢
    omega
  unfold gol_step
  rw [List.getD_eq_getElem?_getD, List.getElem?_map,
    List.getElem?_range hidx]
  simp only [Option.map_some', Option.getD_some, hxmod, hydiv]
  rcases getAtPos_binary ctx hbin (x : Int) (y : Int) with h0 | h0 <;>
    simp only [lifeRuleSpec, h0] <;>
    split_ifs <;>
    simp_all
set_option maxRecDepth 100000 in
/-- Witness for C1 at the center cell `(1,1)` of the vertical blinker. -/
theorem gol_step_follows_life_rule_witness :
    (gol_step blinkerV).cells.getD (1 + 1 * GAME_WIDTH) 0 =
      if lifeRuleSpec (getAtPos blinkerV ((1 : Nat) : Int) ((1 : Nat) : Int) == 1)
          (neighbors blinkerV ((1 : Nat) : Int) ((1 : Nat) : Int)) then 1 else 0 :=
  gol_step_follows_life_rule blinkerV (by decide) 1 1 (by decide) (by decide)

/-- Setting entries to 1 preserves a grid whose entries are all 0 or 1. -/
theorem foldl_set_one_binary {α : Type} (f : α → Nat) (l : List α) :
    ∀ acc : List Nat, (∀ v ∈ acc, v = 0 ∨ v = 1) →
      ∀ v ∈ l.foldl (fun cells a => cells.set (f a) 1) acc, v = 0 ∨ v = 1 := by
  induction l with
  | nil => intro acc hacc; simpa using hacc
  | cons a l ih =>
    intro acc hacc
    rw [List.foldl_cons]
    apply ih
    intro v hv
    rcases List.mem_or_eq_of_mem_set hv with h | h
    · exact hacc v h
    · right; exact h

set_option maxRecDepth 100000 in
/-- C10: on a grid whose cells are all 0 (`Dead`) or 1 (`Alive`), every
cell written by `gol_step` is again 0 or 1, `getAtPos` only returns 0
or 1, every neighbor count lies in `[0, 8]`, and `gol_initialize`
produces only 0/1 cells from any draw sequence. -/
theorem cells_binary_invariant (ctx : GolContext)
    (hbin : ∀ v ∈ ctx.cells, v = 0 ∨ v = 1) :
    (∀ v ∈ (gol_step ctx).cells, v = 0 ∨ v = 1)
    ∧ (∀ x y : Int, getAtPos ctx x y = 0 ∨ getAtPos ctx x y = 1)
    ∧ (∀ x y : Int, neighbors ctx x y ≤ 8)
    ∧ (∀ rand : Nat → Nat, ∀ v ∈ ( gol_initialize rand).cells, v = 0 ∨ v = 1) := by
  have hb1 : ∀ a b : Int, getAtPos ctx a b ≤ 1 := by
    intro a b
    rcases getAtPos_binary ctx hbin a b with h | h <;> omega
  refine ⟨?_, getAtPos_binary ctx hbin, ?_, ?_⟩
  · intro v hv
    unfold gol_step at hv
    simp only [List.mem_map, List.mem_range] at hv
    obtain ⟨idx, _, heq⟩ := hv
    split_ifs at heq
    · exact heq ▸ getAtPos_binary ctx hbin _ _
    · right; omega
    · left; omega
  · intro a b
    unfold neighbors
    have h1 := hb1 (a - 1) (b - 1)
    have h2 := hb1 a (b - 1)
    have h3 := hb1 (a + 1) (b - 1)
    have h4 := hb1 (a - 1) b
    have h5 := hb1 (a + 1) b
    have h6 := hb1 (a - 1) (b + 1)
    have h7 := hb1 a (b + 1)
    have h8 := hb1 (a + 1) (b + 1)
    omega
  · intro rand v hv
    simp only [ gol_initialize] at hv
    exact foldl_set_one_binary rand (List.range (GAME_WIDTH * GAME_HEIGHT / 2))
      (List.replicate (GAME_WIDTH * GAME_HEIGHT) 0)
      (fun w hw => Or.inl (List.eq_of_mem_replicate hw)) v hv

set_option maxRecDepth 100000 in
/-- Witness for C10 at the horizontal blinker and position `(5, 5)`. -/
theorem cells_binary_invariant_witness :
    getAtPos blinkerH 5 5 = 0 ∨ getAtPos blinkerH 5 5 = 1 :=
  (cells_binary_invariant blinkerH (by decide)).2.1 5 5
set_option maxRecDepth 1000000 in
set_option maxHeartbeats 4000000 in
/-- C6: on the 24×18 grid, one `gol_step` turns the vertical blinker
(cells `(1,0)`, `(1,1)`, `(1,2)` alive) into the horizontal blinker
(cells `(0,1)`, `(1,1)`, `(2,1)` alive), and a second `gol_step`
restores the vertical blinker: a period-2 oscillator. -/
theorem blinker_period_two :
    gol_step blinkerV = blinkerH ∧ gol_step (gol_step blinkerV) = blinkerV := by
  have h1 : gol_step blinkerV = blinkerH := by decide
  have h2 : gol_step blinkerH = blinkerV := by decide
  exact ⟨h1, by rw [h1, h2]⟩
/-- Setting entries to 1 does not change the length of the grid. -/
theorem foldl_set_length {α : Type} (f : α → Nat) (l : List α) :
    ∀ acc : List Nat,
      (l.foldl (fun cells a => cells.set (f a) 1) acc).length = acc.length := by
  induction l with
  | nil => intro acc; rfl
  | cons a l ih =>
    intro acc
    rw [List.foldl_cons, ih (acc.set (f a) 1)]
    simp

/-- Pointwise description of the initialization fold: an in-range entry
becomes 1 exactly when some draw hits it, and keeps its old value
otherwise. -/
theorem foldl_set_getD {α : Type} (f : α → Nat) (l : List α) :
    ∀ acc : List Nat, (∀ a ∈ l, f a < acc.length) → ∀ idx, idx < acc.length →
      (l.foldl (fun cells a => cells.set (f a) 1) acc).getD idx 0 =
        if idx ∈ l.map f then 1 else acc.getD idx 0 := by
  induction l with
  | nil => intro acc hall idx hidx; simp
  | cons a l ih =>
    intro acc hall idx hidx
    have hlen : (acc.set (f a) 1).length = acc.length := by simp
    rw [List.foldl_cons,
      ih (acc.set (f a) 1)
        (fun b hb => by rw [hlen]; exact hall b (List.mem_cons_of_mem a hb))
        idx (by rw [hlen]; exact hidx)]
    by_cases hmem : idx ∈ l.map f
    · simp [hmem]
    · by_cases heq : f a = idx
      · have hfa : f a < acc.length := hall a (List.mem_cons_self a l)
        simp only [List.map_cons, List.mem_cons, hmem, or_false, heq,
          if_pos rfl, List.getD_eq_getElem?_getD]
        rw [heq] at hfa
        rw [List.getElem?_set_self hfa]
        rfl
      · simp only [List.map_cons, List.mem_cons, hmem, or_false, if_neg hmem,
          List.getD_eq_getElem?_getD]
        rw [List.getElem?_set_ne heq]
        have hne : ¬idx = f a := fun h => heq h.symm
        simp [hne]

/-- Pointwise description of `gol_initialize`: an in-range cell is 1
exactly when one of the `GAME_WIDTH*GAME_HEIGHT/2` draws selected it,
and 0 otherwise. -/
theorem gol_initialize_getD (rand : Nat → Nat)
    (hr : ∀ i < GAME_WIDTH * GAME_HEIGHT / 2, rand i < GAME_WIDTH * GAME_HEIGHT)
    (idx : Nat) (hidx : idx < GAME_WIDTH * GAME_HEIGHT) :
    ( gol_initialize rand).cells.getD idx 0 =
      if idx ∈ (List.range (GAME_WIDTH * GAME_HEIGHT / 2)).map rand then 1
      else 0 := by
  have hcells := foldl_set_getD rand (List.range (GAME_WIDTH * GAME_HEIGHT / 2))
    (List.replicate (GAME_WIDTH * GAME_HEIGHT) 0)
    (by
      intro a ha
      rw [List.length_replicate]
      exact hr a (List.mem_range.mp ha))
    idx (by rw [List.length_replicate]; exact hidx)
  simp only [ gol_initialize]
  rw [hcells]
  rw [List.getD_eq_getElem?_getD, List.getElem?_replicate_of_lt hidx]
  by_cases hmem : idx ∈ (List.range (GAME_WIDTH * GAME_HEIGHT / 2)).map rand <;>
    simp [hmem]

/-- The `gol_initialize` grid written as an explicit map over all cell
indices. -/
theorem gol_initialize_cells_eq (rand : Nat → Nat)
    (hr : ∀ i < GAME_WIDTH * GAME_HEIGHT / 2, rand i < GAME_WIDTH * GAME_HEIGHT) :
    ( gol_initialize rand).cells =
      (List.range (GAME_WIDTH * GAME_HEIGHT)).map
        (fun idx =>
          if idx ∈ (List.range (GAME_WIDTH * GAME_HEIGHT / 2)).map rand then 1
          else 0) := by
  have hlen : ( gol_initialize rand).cells.length = GAME_WIDTH * GAME_HEIGHT := by
    simp only [ gol_initialize]
    rw [foldl_set_length]
    simp
  apply List.ext_getElem
  · rw [hlen]; simp
  · intro i h1 h2
    have hi : i < GAME_WIDTH * GAME_HEIGHT := by rw [hlen] at h1; exact h1
    have hpt := gol_initialize_getD rand hr i hi
    rw [List.getD_eq_getElem?_getD, List.getElem?_eq_getElem h1] at hpt
    simp only [Option.getD_some] at hpt
    rw [hpt]
    simp

/-- The number of live cells after `gol_initialize` is the number of
distinct positions among the draws. -/
theorem gol_initialize_count (rand : Nat → Nat)
    (hr : ∀ i < GAME_WIDTH * GAME_HEIGHT / 2, rand i < GAME_WIDTH * GAME_HEIGHT) :
    ( gol_initialize rand).cells.count 1 =
      ((List.range (GAME_WIDTH * GAME_HEIGHT / 2)).map rand).dedup.length := by
  rw [gol_initialize_cells_eq rand hr]
  rw [List.count_eq_countP, List.countP_map]
  have hcongr : List.countP
      ((fun x => x == 1) ∘ fun idx =>
        if idx ∈ (List.range (GAME_WIDTH * GAME_HEIGHT / 2)).map rand then 1 else 0)
      (List.range (GAME_WIDTH * GAME_HEIGHT)) =
    List.countP
      (fun idx => decide (idx ∈ (List.range (GAME_WIDTH * GAME_HEIGHT / 2)).map rand))
      (List.range (GAME_WIDTH * GAME_HEIGHT)) := by
    apply List.countP_congr
    intro a ha
    simp only [Function.comp_apply]
    by_cases hmem : a ∈ (List.range (GAME_WIDTH * GAME_HEIGHT / 2)).map rand
    · rw [if_pos hmem, decide_eq_true hmem]
      simp
    · rw [if_neg hmem, decide_eq_false hmem]
      simp
  rw [hcongr]
  rw [List.countP_eq_length_filter]
  have hperm : List.Perm
      ((List.range (GAME_WIDTH * GAME_HEIGHT)).filter
        (fun idx => decide (idx ∈ (List.range (GAME_WIDTH * GAME_HEIGHT / 2)).map rand)))
      ((List.range (GAME_WIDTH * GAME_HEIGHT / 2)).map rand).dedup := by
    apply (List.perm_ext_iff_of_nodup
      ((List.nodup_range _).filter _) (List.nodup_dedup _)).2
    intro a
    simp only [List.mem_filter, List.mem_range, List.mem_dedup, decide_eq_true_eq]
    constructor
    · exact fun h => h.2
    · intro h
      refine ⟨?_, h⟩
      obtain ⟨i, hi, rfl⟩ := List.mem_map.mp h
      exact hr i (List.mem_range.mp hi)
  exact hperm.length_eq

/-- C7: `gol_initialize` zeroes the grid, then performs exactly
`GAME_WIDTH*GAME_HEIGHT/2 = 216` uniform position draws with
replacement (`SDL_rand(432)`), setting each drawn cell alive: every
in-range cell is 1 exactly when drawn and 0 otherwise, the live-cell
count is at most 216, and it equals 216 exactly when no position was
drawn twice. -/
theorem gol_initialize_spec (rand : Nat → Nat)
    (hr : ∀ i < GAME_WIDTH * GAME_HEIGHT / 2, rand i < GAME_WIDTH * GAME_HEIGHT) :
    ((List.range (GAME_WIDTH * GAME_HEIGHT / 2)).map rand).length =
      GAME_WIDTH * GAME_HEIGHT / 2
    ∧ (∀ idx < GAME_WIDTH * GAME_HEIGHT,
        ( gol_initialize rand).cells.getD idx 0 =
          if idx ∈ (List.range (GAME_WIDTH * GAME_HEIGHT / 2)).map rand then 1
          else 0)
    ∧ ( gol_initialize rand).cells.count 1 ≤ GAME_WIDTH * GAME_HEIGHT / 2
    ∧ (( gol_initialize rand).cells.count 1 = GAME_WIDTH * GAME_HEIGHT / 2 ↔
        ((List.range (GAME_WIDTH * GAME_HEIGHT / 2)).map rand).Nodup) := by
  refine ⟨by simp, fun idx hidx => gol_initialize_getD rand hr idx hidx, ?_, ?_⟩
  · rw [gol_initialize_count rand hr]
    have h1 := (List.dedup_sublist
      ((List.range (GAME_WIDTH * GAME_HEIGHT / 2)).map rand)).length_le
    have h2 : ((List.range (GAME_WIDTH * GAME_HEIGHT / 2)).map rand).length =
        GAME_WIDTH * GAME_HEIGHT / 2 := by simp
    omega
  · rw [gol_initialize_count rand hr]
    constructor
    · intro h
      have h2 : ((List.range (GAME_WIDTH * GAME_HEIGHT / 2)).map rand).length =
          GAME_WIDTH * GAME_HEIGHT / 2 := by simp
      have hded : ((List.range (GAME_WIDTH * GAME_HEIGHT / 2)).map rand).dedup =
          (List.range (GAME_WIDTH * GAME_HEIGHT / 2)).map rand :=
        (List.dedup_sublist _).eq_of_length (by omega)
      rw [← hded]
      exact List.nodup_dedup _
    · intro h
      rw [List.dedup_eq_self.2 h]
      simp

set_option maxRecDepth 100000 in
/-- Witness for C7 with the draw sequence `rand i = i`. -/
theorem gol_initialize_spec_witness :
    ( gol_initialize (fun i => i)).cells.count 1 ≤ GAME_WIDTH * GAME_HEIGHT / 2 :=
  ( gol_initialize_spec (fun i => i) (by decide)).2.2.1
/-- C9: the event handler returns `SDL_APP_SUCCESS` (process exit
requested) exactly for `SDL_EVENT_QUIT` and for key-down of Escape or
Q; key-down of R re-invokes `gol_initialize` and continues; every other
event leaves the grid unchanged and continues. -/
theorem SDL_AppEvent_spec (rand : Nat → Nat) (ctx : GolContext) (e : SDL_Event) :
    ((SDL_AppEvent rand ctx e).2 = SDL_AppResult.SDL_APP_SUCCESS ↔
      e = SDL_Event.quit ∨ e = SDL_Event.keyDown SDL_SCANCODE_ESCAPE ∨
        e = SDL_Event.keyDown SDL_SCANCODE_Q)
    ∧ (e = SDL_Event.keyDown SDL_SCANCODE_R →
        SDL_AppEvent rand ctx e =
          ( gol_initialize rand, SDL_AppResult.SDL_APP_CONTINUE))
    ∧ (e ≠ SDL_Event.quit → e ≠ SDL_Event.keyDown SDL_SCANCODE_ESCAPE →
        e ≠ SDL_Event.keyDown SDL_SCANCODE_Q →
        e ≠ SDL_Event.keyDown SDL_SCANCODE_R →
        SDL_AppEvent rand ctx e = (ctx, SDL_AppResult.SDL_APP_CONTINUE)) := by
  have hE : SDL_SCANCODE_ESCAPE = 41 := rfl
  have hQ : SDL_SCANCODE_Q = 20 := rfl
  have hR : SDL_SCANCODE_R = 21 := rfl
  refine ⟨?_, ?_, ?_⟩
  · cases e with
    | quit => simp [SDL_AppEvent]
    | keyDown code =>
      simp only [SDL_AppEvent, handle_key_event_]
      split_ifs with h1 h2
      · apply iff_of_true rfl
        rcases h1 with h | h
        · right; left; rw [h]
        · right; right; rw [h]
      · apply iff_of_false (by simp)
        rintro (h | h | h)
        · exact h.elim
        · rw [hE] at h
          rw [hR] at h2
          simp only [SDL_Event.keyDown.injEq] at h
          omega
        · rw [hQ] at h
          rw [hR] at h2
          simp only [SDL_Event.keyDown.injEq] at h
          omega
      · apply iff_of_false (by simp)
        rintro (h | h | h)
        · exact h.elim
        · simp only [SDL_Event.keyDown.injEq] at h
          exact h1 (Or.inl h)
        · simp only [SDL_Event.keyDown.injEq] at h
          exact h1 (Or.inr h)
    | other ty => simp [SDL_AppEvent]
  · intro he
    subst he
    simp only [SDL_AppEvent, handle_key_event_]
    rw [if_neg (by rw [hE, hQ, hR]; omega)]
    simp
  · intro h0 h1 h2 h3
    cases e with
    | quit => exact absurd rfl h0
    | other ty => simp [SDL_AppEvent]
    | keyDown code =>
      have hc1 : ¬code = SDL_SCANCODE_ESCAPE := fun h => h1 (by rw [h])
      have hc2 : ¬code = SDL_SCANCODE_Q := fun h => h2 (by rw [h])
      have hc3 : ¬code = SDL_SCANCODE_R := fun h => h3 (by rw [h])
      simp only [SDL_AppEvent, handle_key_event_]
      rw [if_neg (by rintro (h | h); exacts [hc1 h, hc2 h]), if_neg hc3]

/-- Witness for C9: an R key-down on the empty grid re-initializes. -/
theorem SDL_AppEvent_spec_witness :
    SDL_AppEvent (fun i => i) emptyCtx (SDL_Event.keyDown SDL_SCANCODE_R) =
      ( gol_initialize (fun i => i), SDL_AppResult.SDL_APP_CONTINUE) :=
  (SDL_AppEvent_spec (fun i => i) emptyCtx
    (SDL_Event.keyDown SDL_SCANCODE_R)).2.1 rfl

/-- The render loop emits exactly one `SDL_RenderFillRect` per alive
cell visited. -/
theorem renderLoop_count (ctx : GolContext) :
    ∀ (l : List (Nat × Nat)) (acc : List RenderCmd) (r : Nat × Nat),
      ((l.foldl (renderCellStep ctx) (acc, r)).1).countP isFillRect =
        acc.countP isFillRect +
          l.countP (fun ij => ctx.cells.getD (ij.1 + ij.2 * GAME_WIDTH) 0 != 0) := by
  intro l
  induction l with
  | nil => intro acc r; simp
  | cons ij l ih =>
    intro acc r
    rw [List.foldl_cons, List.countP_cons]
    rw [renderCellStep]
    by_cases h : ctx.cells.getD (ij.1 + ij.2 * GAME_WIDTH) 0 != 0
    · rw [if_pos h]
      dsimp only
      rw [ih, List.countP_append]
      have hfill : List.countP isFillRect
          [RenderCmd.renderFillRect (ij.1 * BLOCK_SIZE_IN_PIXELS)
            (ij.2 * BLOCK_SIZE_IN_PIXELS)
            (BLOCK_SIZE_IN_PIXELS - 1) (BLOCK_SIZE_IN_PIXELS - 1)] = 1 := by
        simp [List.countP_cons, isFillRect]
      rw [hfill]
      rw [if_pos h]
      omega
    · rw [if_neg h]
      rw [ih]
      rw [if_neg h]
      omega

/-- C4: after catching up, each frame issues one clear, then one filled
`(BLOCK_SIZE_IN_PIXELS - 1)`-sided square per alive cell — plus the
stray `SDL_RenderFillRect` of gameoflife.c line 130 — then one present;
so the number of `SDL_RenderFillRect` calls per frame is the number of
alive cells plus one, not equal to it as the specification claims. -/
theorem render_fillRect_count (ctx : GolContext) (r0 : Nat × Nat) :
    (SDL_AppIterate_render ctx r0).countP isFillRect =
      countAliveCells ctx + 1 := by
  unfold SDL_AppIterate_render
  rw [List.countP_append, List.countP_append]
  simp only [renderLoop]
  rw [renderLoop_count ctx cellPairs [] r0]
  have hpre : List.countP isFillRect
      [RenderCmd.setRenderDrawColor 96 96 96 255, RenderCmd.renderClear,
       RenderCmd.setRenderDrawColor 255 255 0 255] = 0 := by
    simp [List.countP_cons, isFillRect]
  have hsuf : List.countP isFillRect
      [RenderCmd.renderFillRect
          (List.foldl (renderCellStep ctx) ([], r0) cellPairs).2.1
          (List.foldl (renderCellStep ctx) ([], r0) cellPairs).2.2
          (BLOCK_SIZE_IN_PIXELS - 1) (BLOCK_SIZE_IN_PIXELS - 1),
        RenderCmd.renderPresent] = 1 := by
    simp [List.countP_cons, isFillRect]
  rw [hpre, hsuf]
  unfold countAliveCells
  simp
